import Mathlib

/-!
Verification of the experiment execution engine of the spectrum-impl
repository (python): a shallow embedding of the core data model and
operations (`experiments/system.py`, `experiments/spectrum/__init__.py`,
`experiments/packer.py`, `experiments/cloud.py`, `experiments/run.py`,
`experiments/__main__.py`, `experiments_new/run.py`), together with
theorems settling the spec claims about them.

Conventions: Python ints become `Nat`/`Int`/`Rat` (true division on `Rat`),
sets become lists, external effects (Packer, Terraform, `Experiment.run`)
become explicit oracle parameters, and each stateful routine is embedded
as a pure function from its inputs (including the oracle) to a trace of
the observable actions it performs.
-/

namespace Spectrum

/-! ## Basic newtypes (experiments/cloud.py, experiments/util.py)

`Region`, `SHA`, `AMI`, `InstanceType`, `BuildProfile` are `NewType`s over
`str`; `Bytes`, `Milliseconds` over `int`. -/

abbrev Region := String
abbrev SHA := String
abbrev AMI := String
abbrev InstanceType := String
abbrev BuildProfile := String

def AWS_REGION : Region := "us-east-2"

def DEFAULT_INSTANCE_TYPE : InstanceType := "c5.4xlarge"

/-! ## Protocol (experiments/spectrum/__init__.py)

The registry-dispatched `Protocol` subclasses (`Symmetric`, `SymmetricPub`,
`SeedHomomorphic`) become a closed inductive. `security` is `Bytes`
(an int), `parties` an int. -/

inductive Protocol where
  | symmetric (security : Nat)
  | symmetricPub (security : Nat)
  | seedHomomorphic (parties : Nat)
  deriving DecidableEq, Repr

/-! ## Environment (experiments/spectrum/__init__.py, lines 128-166)

`@dataclass(order=True, frozen=True)`: equality and the strict total
order are field-wise lexicographic in declaration order
(`instance_type`, `client_machines`, `worker_machines_east`,
`worker_machines_west`). -/

structure Environment where
  instance_type : InstanceType
  client_machines : Nat
  worker_machines_east : Nat
  worker_machines_west : Nat
  deriving DecidableEq, Repr

namespace Environment

def total_machines (e : Environment) : Nat :=
  e.client_machines + e.worker_machines_east + e.worker_machines_west + 1

/-- The tuple of fields in declaration order, as a lexicographic product:
Python `dataclass(order=True)` comparison is exactly tuple (lexicographic)
comparison of the fields. -/
def fieldKey (e : Environment) : Lex (String × Lex (Nat × Lex (Nat × Nat))) :=
  toLex (e.instance_type,
    toLex (e.client_machines, toLex (e.worker_machines_east, e.worker_machines_west)))

theorem fieldKey_injective : Function.Injective fieldKey := by
  intro a b h
  cases a; cases b
  simp only [fieldKey, toLex, Equiv.refl_apply, Prod.mk.injEq] at h
  obtain ⟨h1, h2, h3, h4⟩ := h
  simp_all

instance : LinearOrder Environment :=
  LinearOrder.lift' fieldKey fieldKey_injective

end Environment

/-! ## Experiment (experiments/spectrum/__init__.py, lines 282-337) -/

structure Experiment where
  clients : Nat
  channels : Nat
  message_size : Nat
  instance_type : InstanceType := DEFAULT_INSTANCE_TYPE
  clients_per_machine : Option Nat := none
  workers_per_machine : Nat := 4
  worker_machines_per_group : Nat := 1
  protocol : Protocol := .symmetric 16
  hammer : Bool := true
  expected_runtime : Option Nat := none
  deriving DecidableEq, Repr

namespace Experiment

/-- `Experiment.groups`: 2 for the (public-)symmetric protocols, `parties`
for seed-homomorphic. -/
def groups (e : Experiment) : Nat :=
  match e.protocol with
  | .symmetric _ => 2
  | .symmetricPub _ => 2
  | .seedHomomorphic parties => parties

/-- `Experiment.cpm`: explicit `clients_per_machine` if set, else 8 when
hammering, else 500. -/
def cpm (e : Experiment) : Nat :=
  match e.clients_per_machine with
  | some n => n
  | none => if e.hammer then 8 else 500

def group_size (e : Experiment) : Nat :=
  e.workers_per_machine * e.worker_machines_per_group

/-- `math.ceil(a / b)` on nonnegative ints (`b > 0`): `(a + b - 1) / b`
in natural division. -/
def ceilDiv (a b : Nat) : Nat := (a + b - 1) / b

/-- `Experiment.to_environment`. -/
def to_environment (e : Experiment) : Environment :=
  { instance_type := e.instance_type
    client_machines := ceilDiv e.clients e.cpm
    worker_machines_east := e.worker_machines_per_group * ((e.groups + 1) / 2)
    worker_machines_west := e.worker_machines_per_group * (e.groups / 2) }

end Experiment

/-! ## distribute (experiments/spectrum/__init__.py, lines 276-279)

`counts = [balls_per_bin] * (balls // balls_per_bin); counts.append(balls % balls_per_bin)` -/

def distribute (balls balls_per_bin : Nat) : List Nat :=
  List.replicate (balls / balls_per_bin) balls_per_bin ++ [balls % balls_per_bin]

/-! ## Result (experiments/system.py, lines 140-151)

`time: Milliseconds` and `queries: int` are declared ints, but `queries`
is in fact populated with a float by `_execute_experiment`, and `qps`
uses Python true division; both are embedded as rationals. -/

structure Result where
  experiment : Experiment
  time : ℚ
  queries : ℚ
  mean_latency : Option ℚ := none

/-- `Result.qps = (self.queries / self.time) * 1000`. -/
def Result.qps (r : Result) : ℚ := (r.queries / r.time) * 1000

/-! ## Environment-sharing scheduler
(experiments/system.py `group_by_environment`, lines 235-240; the
identical `experiments_by_environment` in experiments/__init__.py)

`sorted(experiments, key=lambda e: e.to_environment())` is a stable sort
comparing the derived Environments; `itertools.groupby` then chunks the
sorted list into maximal runs of adjacent elements with equal key. -/

/-- The comparison `sorted` effectively uses: derived Environments under
the dataclass total order. -/
def envLE (a b : Experiment) : Prop :=
  a.to_environment ≤ b.to_environment

instance : DecidableRel envLE := fun a b =>
  inferInstanceAs (Decidable (a.to_environment ≤ b.to_environment))

instance : IsTotal Experiment envLE :=
  ⟨fun a b => le_total a.to_environment b.to_environment⟩

instance : IsTrans Experiment envLE := ⟨fun _ _ _ h h₂ => le_trans h h₂⟩

/-- Python's `sorted` by the Environment key: a stable sort (Timsort);
embedded as insertion sort, which is stable for the same total preorder. -/
def sortByEnvironment (es : List Experiment) : List Experiment :=
  List.insertionSort envLE es

/-- `itertools.groupby` with the Environment key: maximal runs of
adjacent elements whose keys are equal, each tagged with the run's key. -/
def groupRuns : List Experiment → List (Environment × List Experiment)
  | [] => []
  | e :: es =>
    (e.to_environment,
      e :: es.takeWhile (fun x => decide (x.to_environment = e.to_environment))) ::
      groupRuns (es.dropWhile (fun x => decide (x.to_environment = e.to_environment)))
termination_by l => l.length
decreasing_by
  simp only [List.length_cons]
  exact Nat.lt_succ_of_le (List.dropWhile_sublist _).length_le

/-- `group_by_environment` (equivalently `experiments_by_environment`):
sort by derived Environment, then group adjacent equal Environments. -/
def group_by_environment (es : List Experiment) :
    List (Environment × List Experiment) :=
  groupRuns (sortByEnvironment es)

/-- Concatenation of the groups, in order. -/
def joinGroups (gs : List (Environment × List Experiment)) : List Experiment :=
  (gs.map Prod.snd).flatten

theorem joinGroups_groupRuns : ∀ l : List Experiment, joinGroups (groupRuns l) = l
  | [] => by simp [groupRuns, joinGroups]
  | e :: es => by
    rw [groupRuns]
    have ih := joinGroups_groupRuns
      (es.dropWhile fun x => decide (x.to_environment = e.to_environment))
    simp only [joinGroups, List.map_cons, List.flatten_cons] at ih ⊢
    rw [ih]
    simp
termination_by l => l.length
decreasing_by
  simp only [List.length_cons]
  exact Nat.lt_succ_of_le (List.dropWhile_sublist _).length_le

theorem filter_orderedInsert (v : Environment) (a : Experiment) :
    ∀ l : List Experiment,
      (List.orderedInsert envLE a l).filter (fun x => decide (x.to_environment = v)) =
        ((a :: l).filter (fun x => decide (x.to_environment = v)))
  | [] => rfl
  | b :: l => by
    by_cases hab : envLE a b
    · rw [List.orderedInsert, if_pos hab]
    · rw [List.orderedInsert, if_neg hab]
      have hne : a.to_environment ≠ b.to_environment := fun h => hab (le_of_eq h)
      have ih := filter_orderedInsert v a l
      by_cases ha : a.to_environment = v <;> by_cases hb : b.to_environment = v
      · exact absurd (ha.trans hb.symm) hne
      · simp [List.filter_cons, ha, hb, ih]
      · simp [List.filter_cons, ha, hb, ih]
      · simp [List.filter_cons, ha, hb, ih]

/-- Stability of the embedded sort: for each Environment value, the
subsequence of Experiments with that Environment is unchanged. -/
theorem filter_sortByEnvironment (v : Environment) :
    ∀ es : List Experiment,
      (sortByEnvironment es).filter (fun x => decide (x.to_environment = v)) =
        es.filter (fun x => decide (x.to_environment = v))
  | [] => rfl
  | a :: es => by
    have ih := filter_sortByEnvironment v es
    simp only [sortByEnvironment] at ih
    show (List.orderedInsert envLE a (List.insertionSort envLE es)).filter _ = _
    rw [filter_orderedInsert v a (List.insertionSort envLE es)]
    by_cases ha : a.to_environment = v <;> simp [List.filter_cons, ha, ih]

theorem groupRuns_fst_mem :
    ∀ l : List Experiment, ∀ k ∈ (groupRuns l).map Prod.fst,
      ∃ x ∈ l, x.to_environment = k
  | [] => by simp [groupRuns]
  | e :: es => by
    rw [groupRuns]
    intro k hk
    simp only [List.map_cons, List.mem_cons] at hk
    rcases hk with rfl | hk
    · exact ⟨e, List.mem_cons_self e es, rfl⟩
    · obtain ⟨x, hx, hxk⟩ := groupRuns_fst_mem
        (es.dropWhile fun x => decide (x.to_environment = e.to_environment)) k hk
      exact ⟨x, List.mem_cons_of_mem e (List.Sublist.mem hx (List.dropWhile_sublist _)), hxk⟩
termination_by l => l.length
decreasing_by
  simp only [List.length_cons]
  exact Nat.lt_succ_of_le (List.dropWhile_sublist _).length_le

theorem lt_of_mem_dropWhile_sorted {k : Environment} :
    ∀ es : List Experiment, es.Sorted envLE →
      (∀ x ∈ es, k ≤ x.to_environment) →
      ∀ x ∈ es.dropWhile (fun y => decide (y.to_environment = k)),
        k < x.to_environment := by
  intro es
  induction es with
  | nil => simp
  | cons a es ih =>
    intro hs hle x hx
    by_cases ha : a.to_environment = k
    · rw [List.dropWhile_cons_of_pos (by simpa using ha)] at hx
      exact ih hs.of_cons (fun y hy => hle y (List.mem_cons_of_mem a hy)) x hx
    · rw [List.dropWhile_cons_of_neg (by simpa using ha)] at hx
      rcases List.mem_cons.mp hx with rfl | hx
      · exact lt_of_le_of_ne (hle x (List.mem_cons_self x es)) (fun h => ha h.symm)
      · calc k < a.to_environment :=
              lt_of_le_of_ne (hle a (List.mem_cons_self a es)) (fun h => ha h.symm)
          _ ≤ x.to_environment := (List.sorted_cons.mp hs).1 x hx

theorem groupRuns_keys_lt :
    ∀ l : List Experiment, l.Sorted envLE →
      ((groupRuns l).map Prod.fst).Pairwise (fun a b => a < b)
  | [] => by simp [groupRuns]
  | e :: es => fun hs => by
    rw [groupRuns]
    simp only [List.map_cons]
    rw [List.pairwise_cons]
    constructor
    · intro k hk
      obtain ⟨x, hx, rfl⟩ := groupRuns_fst_mem _ k hk
      exact lt_of_mem_dropWhile_sorted es hs.of_cons
        (fun y hy => (List.sorted_cons.mp hs).1 y hy) x hx
    · exact groupRuns_keys_lt _
        (hs.of_cons.sublist (List.dropWhile_sublist _))
termination_by l => l.length
decreasing_by
  simp only [List.length_cons]
  exact Nat.lt_succ_of_le (List.dropWhile_sublist _).length_le

theorem groupRuns_member_env :
    ∀ l : List Experiment, ∀ p ∈ groupRuns l, ∀ x ∈ p.2,
      x.to_environment = p.1
  | [] => by simp [groupRuns]
  | e :: es => by
    rw [groupRuns]
    intro p hp
    rcases List.mem_cons.mp hp with rfl | hp
    · intro x hx
      rcases List.mem_cons.mp hx with rfl | hx
      · rfl
      · simpa using List.mem_takeWhile_imp hx
    · exact groupRuns_member_env _ p hp
termination_by l => l.length
decreasing_by
  simp only [List.length_cons]
  exact Nat.lt_succ_of_le (List.dropWhile_sublist _).length_le

/-! ## Build cache / image builder driver (experiments/packer.py)

`Manifest.from_disk` reloads from durable state before each lookup; the
contents it returns at each call site are therefore oracle parameters
here. The external `packer build` invocation is likewise an oracle: the
manifest contents observed on the reload after the build. -/

structure Config where
  instance_type : InstanceType
  sha : SHA
  profile : BuildProfile
  deriving DecidableEq, Repr

structure Build where
  timestamp : Nat
  region : Region
  ami : AMI
  instance_type : InstanceType
  sha : SHA
  profile : BuildProfile
  deriving DecidableEq, Repr

def Build.to_config (b : Build) : Config :=
  { instance_type := b.instance_type, sha := b.sha, profile := b.profile }

/-- The manifest: list of builds, newest to oldest. -/
structure Manifest where
  builds : List Build
  deriving DecidableEq, Repr

/-- `Manifest.most_recent_matching`: first build whose configuration
equals `build_config`. -/
def Manifest.most_recent_matching (m : Manifest) (build_config : Config) :
    Option Build :=
  m.builds.find? (fun b => decide (b.to_config = build_config))

/-- Result of `ensure_ami_build`, distinguishing whether the expensive
`packer build` step was invoked. -/
inductive BuildResult where
  | cached (b : Build)
  | builtThen (b : Build)
  | buildError
  deriving DecidableEq, Repr

/-- `force_rebuild = force_rebuilt is not None and build_config not in
force_rebuilt`. The Python set is embedded as a list with membership by
equality. -/
def forceOf (force_rebuilt : Option (List Config)) (build_config : Config) :
    Bool :=
  match force_rebuilt with
  | some s => decide (build_config ∉ s)
  | none => false

/-- `ensure_ami_build(build_config, git_root, force_rebuilt)`, lines 91-140.
`manifest` is what `Manifest.from_disk` returns on entry;
`manifestAfterBuild` is what it returns on the reload after a `packer
build`. Returns the result together with the updated `force_rebuilt` set
(mutated in place in the source). -/
def ensure_ami_build (build_config : Config) (manifest : Manifest)
    (force_rebuilt : Option (List Config)) (manifestAfterBuild : Manifest) :
    BuildResult × Option (List Config) :=
  let build := manifest.most_recent_matching build_config
  let force_rebuild := forceOf force_rebuilt build_config
  let force_rebuilt := if force_rebuild
    then force_rebuilt.map (fun s => build_config :: s)
    else force_rebuilt
  match build, force_rebuild with
  | some b, false => (.cached b, force_rebuilt)
  | _, _ =>
    match manifestAfterBuild.most_recent_matching build_config with
    | some b => (.builtThen b, force_rebuilt)
    | none => (.buildError, force_rebuilt)

/-! ## Terraform variable maps
(experiments/cloud.py `cleanup`, lines 98-111;
experiments/spectrum/__init__.py `Environment.make_tf_vars` lines
144-155 and `Environment.make_tf_cleanup_vars` lines 157-166) -/

structure TfVars where
  region : Region
  instance_type : InstanceType
  client_machine_count : Nat
  worker_machine_east_count : Nat
  worker_machine_west_count : Nat
  sha : SHA
  deriving DecidableEq, Repr

/-- `Environment.make_tf_vars` (the provisioning variable map). -/
def Environment.make_tf_vars (e : Environment) (build_sha : SHA) : TfVars :=
  { instance_type := e.instance_type
    client_machine_count := e.client_machines
    worker_machine_east_count := e.worker_machines_east
    worker_machine_west_count := e.worker_machines_west
    region := AWS_REGION
    sha := build_sha }

/-- `Environment.make_tf_cleanup_vars` (static method; fixed map). -/
def make_tf_cleanup_vars : TfVars :=
  { region := AWS_REGION
    instance_type := DEFAULT_INSTANCE_TYPE
    client_machine_count := 0
    worker_machine_east_count := 0
    worker_machine_west_count := 0
    sha := "null" }

/-- `cloud.cleanup`'s finally block computes the destroy variables as
`system.environment.make_tf_cleanup_vars()`. The variable map that was
last provisioned does not flow into it at all in the source; this
embedding records that by taking it as a parameter that the body (like
the source) never consults. -/
def cleanup_destroy_vars (_last_provisioned : TfVars) : TfVars :=
  make_tf_cleanup_vars

/-! ## Terraform provisioning (experiments/cloud.py `terraform`, lines 37-95) -/

/-- One invocation of `terraform plan`, as observed by the driver: either
`check_output` succeeds with output lines, or raises
`CalledProcessError` with the failure text classified exactly as the
except-branch classifies it. -/
inductive PlanResult where
  | ok (output : List String)
  | errNeedsInit
  | errNoImage
  | errOther
  deriving DecidableEq, Repr

/-- Python `l.lstrip()`: drop leading whitespace characters. -/
def lstrip (s : String) : String :=
  String.mk (s.data.dropWhile Char.isWhitespace)

/-- Python `l.startswith("#")`: the first character is `#`. -/
def startsWithHash (s : String) : Bool :=
  s.data.head? = some '#'

/-- `changes = [l for l in plan_output.split("\n") if l.lstrip().startswith("#")]`. -/
def planChanges (output : List String) : List String :=
  output.filter (fun l => startsWithHash (lstrip l))

inductive TfOutcome where
  | ok
  | noImage
  | planFailed
  | applyFailed
  deriving DecidableEq, Repr

/-- Trace of the observable external actions of one `terraform` call. -/
structure TfTrace where
  init_runs : Nat
  plan_runs : Nat
  apply_runs : Nat
  outcome : TfOutcome
  deriving DecidableEq, Repr

/-- The post-plan phase: apply only if the change list is nonempty. -/
def terraformApplyPhase (output : List String) (init_runs plan_runs : Nat)
    (apply_ok : Bool) : TfTrace :=
  if planChanges output = [] then
    { init_runs := init_runs, plan_runs := plan_runs, apply_runs := 0,
      outcome := .ok }
  else if apply_ok then
    { init_runs := init_runs, plan_runs := plan_runs, apply_runs := 1,
      outcome := .ok }
  else
    { init_runs := init_runs, plan_runs := plan_runs, apply_runs := 1,
      outcome := .applyFailed }

/-- `cloud.terraform`: plan; on a "terraform init" failure run
`terraform init` once and retry the plan exactly once (a second failure
of any kind propagates); on a "query returned no results" failure raise
`NoImageError`; on any other plan failure write terraform.log and
re-raise; then apply only if there are changes. `plan2` is consulted
only on the init-retry path, `apply_ok` only if the apply step runs. -/
def terraform (plan1 plan2 : PlanResult) (apply_ok : Bool) : TfTrace :=
  match plan1 with
  | .ok output => terraformApplyPhase output 0 1 apply_ok
  | .errNeedsInit =>
    match plan2 with
    | .ok output => terraformApplyPhase output 1 2 apply_ok
    | _ => { init_runs := 1, plan_runs := 2, apply_runs := 0,
             outcome := .planFailed }
  | .errNoImage => { init_runs := 0, plan_runs := 1, apply_runs := 0,
                     outcome := .noImage }
  | .errOther => { init_runs := 0, plan_runs := 1, apply_runs := 0,
                   outcome := .planFailed }

/-! ## Trial executor (experiments/run.py `retry_experiment`, lines 162-210) -/

def MAX_ATTEMPTS : Nat := 5

/-- What one iteration's race between the `experiment.run()` task and the
`ctrl_c` event produces: the event fired, or `run()` raised, or `run()`
returned a time. -/
inductive Outcome where
  | interrupt
  | failure
  | success (time : Nat)
  deriving DecidableEq, Repr

/-- Observable effects of one `retry_experiment` call: loop iterations
entered, appends to error.log, `writer(...)` calls (the emitted Result
times), and whether `KeyboardInterrupt` was raised. The Python function
itself always returns `None`; a trial's Result reaches the caller only
through `writer`. -/
structure ExecTrace where
  attempts : Nat
  log_entries : Nat
  written : List Nat
  aborted : Bool
  deriving DecidableEq, Repr

/-- The `for attempt in range(1, MAX_ATTEMPTS + 1)` body. `fuel` is the
number of iterations remaining (`MAX_ATTEMPTS + 1 - attempt`);
`interrupted` is the first-Ctrl+C flag; `log` the error.log entries so
far. -/
def retryLoop (outcomes : Nat → Outcome) :
    Nat → Nat → Bool → Nat → ExecTrace
  | attempt, 0, _, log =>
    { attempts := attempt - 1, log_entries := log, written := [],
      aborted := false }
  | attempt, fuel + 1, interrupted, log =>
    match outcomes attempt with
    | .interrupt =>
      if interrupted then
        { attempts := attempt, log_entries := log, written := [],
          aborted := true }
      else retryLoop outcomes (attempt + 1) fuel true log
    | .failure => retryLoop outcomes (attempt + 1) fuel interrupted (log + 1)
    | .success t =>
      { attempts := attempt, log_entries := log, written := [t],
        aborted := false }

/-- `retry_experiment`: run the loop from attempt 1 with the interrupted
flag clear and an empty error log. -/
def retry_experiment (outcomes : Nat → Outcome) : ExecTrace :=
  retryLoop outcomes 1 MAX_ATTEMPTS false 0

/-! ## Top-level driver (experiments/__main__.py `main`, lines 133-156;
experiments/run.py `run_experiments`, lines 213-229) -/

/-- `run_experiments` runs the trials sequentially; it raises iff some
trial's executor raises `KeyboardInterrupt` (the only exception
`retry_experiment` lets a trial produce). -/
def run_experiments_interrupted (trials : List (Nat → Outcome)) : Bool :=
  trials.any (fun t => (retry_experiment t).aborted)

/-- `main` wraps `run_experiments` in `try ... except KeyboardInterrupt:
pass`, so it returns normally on both paths, and a Python script whose
`asyncio.run(main(...))` returns normally exits with code 0. -/
def main_exit_code (trials : List (Nat → Outcome)) : Nat :=
  if run_experiments_interrupted trials then 0 else 0

/-- A trial exhausted its retries without success: its executor emitted
no Result and did not abort the run. -/
def exhausted_retries (t : Nat → Outcome) : Prop :=
  (retry_experiment t).written = [] ∧ (retry_experiment t).aborted = false

end Spectrum

/-! ## Historical snapshot: experiments_new/run.py -/

namespace SpectrumNew

/-- `Setting` (experiments_new/run.py lines 135-139), over an arbitrary
machine handle type: an open SSH connection paired with a hostname in
the source. -/
structure Setting (M : Type) where
  publisher : M
  workers : List M
  clients : List M
  deriving DecidableEq, Repr

/-- `Environment` (experiments_new/run.py lines 205-221). -/
structure Environment where
  machine_type : String
  client_machines : Nat
  worker_machines : Nat
  deriving DecidableEq, Repr

def Environment.total_machines (e : Environment) : Nat :=
  e.client_machines + e.worker_machines + 1

/-- Python slice `machines[-c:]` for a nonnegative count `c`: since
`-0 == 0`, a zero count denotes the whole list; a positive count the
last `c` elements (clamped to the whole list when `c` exceeds the
length). -/
def sliceFromNegCount (machines : List M) (c : Nat) : List M :=
  if c = 0 then machines else machines.drop (machines.length - c)

/-- `Environment.to_setup`: asserts `len(machines) == total_machines`
(embedded as `none` on assertion failure), then slices the machine list
into publisher (`machines[0]`), workers (`machines[1 : worker_machines + 1]`)
and clients (`machines[-client_machines:]`). -/
def Environment.to_setup (e : Environment) (machines : List M) :
    Option (Setting M) :=
  if machines.length = e.total_machines then
    match machines with
    | m0 :: _ =>
      some { publisher := m0
             workers := (machines.drop 1).take e.worker_machines
             clients := sliceFromNegCount machines e.client_machines }
    | [] => none
  else none

end SpectrumNew

namespace Spectrum

/-! ## Claim theorems -/

/-- C3: for any list of Experiments, the environment-sharing scheduler
returns an ordered list of (Environment, [Experiment]) pairs whose
concatenation, in order, is exactly the stable sort of the input by the
derived Environment (a permutation of the input, sorted by Environment,
preserving the relative order of Experiments with equal Environments),
with every member of a group carrying that group's Environment, and no
two distinct groups sharing an Environment value. -/
theorem group_by_environment_correct (es : List Experiment) :
    joinGroups (group_by_environment es) = sortByEnvironment es ∧
    (sortByEnvironment es).Perm es ∧
    (sortByEnvironment es).Sorted envLE ∧
    (∀ v : Environment,
      (sortByEnvironment es).filter (fun x => decide (x.to_environment = v)) =
        es.filter (fun x => decide (x.to_environment = v))) ∧
    (∀ p ∈ group_by_environment es, ∀ x ∈ p.2, x.to_environment = p.1) ∧
    ((group_by_environment es).map Prod.fst).Pairwise (fun a b => a ≠ b) := by
  refine ⟨joinGroups_groupRuns _, List.perm_insertionSort envLE es,
    List.sorted_insertionSort envLE es, fun v => filter_sortByEnvironment v es,
    groupRuns_member_env _, ?_⟩
  exact (groupRuns_keys_lt _ (List.sorted_insertionSort envLE es)).imp
    (fun h => ne_of_lt h)

/-- C5: teardown always passes the fixed zero-count cleanup variable map
to the destroy step: the destroy variables are `make_tf_cleanup_vars`
for any last-provisioned variable map (in particular for the variables
of any Environment), and that map has all machine counts zero and the
null sha. -/
theorem cleanup_vars_invariant :
    (∀ v : TfVars, cleanup_destroy_vars v = make_tf_cleanup_vars) ∧
    (∀ (e : Environment) (s : SHA),
      cleanup_destroy_vars (e.make_tf_vars s) = make_tf_cleanup_vars) ∧
    make_tf_cleanup_vars.client_machine_count = 0 ∧
    make_tf_cleanup_vars.worker_machine_east_count = 0 ∧
    make_tf_cleanup_vars.worker_machine_west_count = 0 ∧
    make_tf_cleanup_vars.sha = "null" :=
  ⟨fun _ => rfl, fun _ _ => rfl, rfl, rfl, rfl, rfl⟩

/-- C8 counterexample: the claim says `Result.qps` equals
queries divided by time; at the concrete Result with `queries = 1` and
`time = 1` the code computes `(1 / 1) * 1000 = 1000 ≠ 1`. -/
theorem qps_not_queries_div_time :
    ¬ (Result.qps { experiment := { clients := 0, channels := 0, message_size := 0 },
                    time := 1, queries := 1 } =
        (1 : ℚ) / 1) := by
  norm_num [Result.qps]

/-- C8 amended: `Result.qps` is queries divided by time scaled by 1000
(queries are per millisecond, qps is per second): for nonzero time,
`qps * time = 1000 * queries`. -/
theorem qps_spec (r : Result) (h : r.time ≠ 0) :
    r.qps * r.time = 1000 * r.queries := by
  rw [Result.qps]
  field_simp
  ring

theorem qps_spec_witness :
    ((({ experiment := { clients := 0, channels := 0, message_size := 0 },
         time := 2, queries := 3 } : Result).time ≠ 0) ∧
      ({ experiment := { clients := 0, channels := 0, message_size := 0 },
         time := 2, queries := 3 } : Result).qps *
        ({ experiment := { clients := 0, channels := 0, message_size := 0 },
           time := 2, queries := 3 } : Result).time =
        1000 * ({ experiment := { clients := 0, channels := 0, message_size := 0 },
                  time := 2, queries := 3 } : Result).queries) :=
  ⟨by norm_num, qps_spec _ (by norm_num)⟩

/-- C9: for `balls_per_bin > 0`, `distribute(balls, balls_per_bin)`
returns a list summing to `balls`, of length `balls / balls_per_bin + 1`,
whose entries before the last all equal `balls_per_bin` and whose last
entry is `balls % balls_per_bin` (possibly a zero-count final bin). -/
theorem distribute_spec (balls balls_per_bin : Nat) (h : 0 < balls_per_bin) :
    (distribute balls balls_per_bin).sum = balls ∧
    (distribute balls balls_per_bin).length = balls / balls_per_bin + 1 ∧
    (distribute balls balls_per_bin).dropLast =
      List.replicate (balls / balls_per_bin) balls_per_bin ∧
    (distribute balls balls_per_bin).getLast? = some (balls % balls_per_bin) := by
  refine ⟨?_, ?_, ?_, ?_⟩
  · rw [distribute, List.sum_append, List.sum_replicate, smul_eq_mul]
    simp only [List.sum_cons, List.sum_nil, Nat.add_zero]
    rw [Nat.mul_comm]
    exact Nat.div_add_mod balls balls_per_bin
  · simp [distribute]
  · rw [distribute, List.dropLast_concat]
  · rw [distribute, List.getLast?_concat]

theorem distribute_spec_witness :
    0 < 3 ∧
    ((distribute 7 3).sum = 7 ∧
      (distribute 7 3).length = 7 / 3 + 1 ∧
      (distribute 7 3).dropLast = List.replicate (7 / 3) 3 ∧
      (distribute 7 3).getLast? = some (7 % 3)) :=
  ⟨by decide, distribute_spec 7 3 (by decide)⟩

theorem ensure_ami_build_snd (cfg : Config) (m : Manifest)
    (fr : Option (List Config)) (after : Manifest) :
    (ensure_ami_build cfg m fr after).2 =
      if forceOf fr cfg then fr.map (fun s => cfg :: s) else fr := by
  rw [ensure_ami_build]
  cases hb : m.most_recent_matching cfg <;> cases hf : forceOf fr cfg <;>
    simp only [hb, hf, if_true, if_false, Bool.false_eq_true] <;>
      first
        | rfl
        | (cases after.most_recent_matching cfg <;> rfl)

/-- C4: the build cache. With force computed false and a matching record
in the reloaded Manifest, `ensure_ami_build` returns that record without
invoking the builder. Under forced rebuild (a non-null rebuilt-set),
force is true exactly when the configuration is not yet in the set, the
configuration belongs to the updated set afterwards, and force can never
again be computed true for it — so the expensive build step runs at most
once per distinct configuration per run. Two calls with equal
configurations, no forced rebuild, and the same reloaded Manifest
contents return the same BuildRecord, whatever the builder oracle does. -/
theorem ensure_ami_build_cache :
    (∀ (cfg : Config) (m : Manifest) (fr : Option (List Config))
        (after : Manifest) (b : Build),
      forceOf fr cfg = false → m.most_recent_matching cfg = some b →
      ensure_ami_build cfg m fr after = (.cached b, fr)) ∧
    (∀ (cfg : Config) (s : List Config),
      (forceOf (some s) cfg = true ↔ cfg ∉ s) ∧
      ∀ m after : Manifest, ∃ sNew : List Config,
        (ensure_ami_build cfg m (some s) after).2 = some sNew ∧
        cfg ∈ sNew ∧ forceOf (some sNew) cfg = false) ∧
    (∀ (cfg : Config) (m after after2 : Manifest) (b : Build),
      m.most_recent_matching cfg = some b →
      (ensure_ami_build cfg m none after).1 = .cached b ∧
      (ensure_ami_build cfg m none after2).1 = .cached b) := by
  have hit : ∀ (cfg : Config) (m : Manifest) (fr : Option (List Config))
      (after : Manifest) (b : Build),
      forceOf fr cfg = false → m.most_recent_matching cfg = some b →
      ensure_ami_build cfg m fr after = (.cached b, fr) := by
    intro cfg m fr after b hf hb
    rw [ensure_ami_build]
    simp only [hb, hf, Bool.false_eq_true, if_false]
  refine ⟨hit, ?_, ?_⟩
  · intro cfg s
    refine ⟨by simp [forceOf], ?_⟩
    intro m after
    rw [ensure_ami_build_snd]
    by_cases hmem : cfg ∈ s
    · have hf : forceOf (some s) cfg = false := by simp [forceOf, hmem]
      refine ⟨s, ?_, hmem, hf⟩
      rw [hf]
      simp
    · have hf : forceOf (some s) cfg = true := by simp [forceOf, hmem]
      refine ⟨cfg :: s, ?_, List.mem_cons_self cfg s, ?_⟩
      · rw [hf]
        simp [Option.map]
      · simp [forceOf]
  · intro cfg m after after2 b hb
    exact ⟨by rw [hit cfg m none after b rfl hb],
      by rw [hit cfg m none after2 b rfl hb]⟩

theorem ensure_ami_build_cache_witness :
    (forceOf none { instance_type := "c5.4xlarge", sha := "abc",
                    profile := "release" } = false ∧
      Manifest.most_recent_matching
        { builds := [{ timestamp := 1, region := "us-east-2", ami := "ami-1",
                       instance_type := "c5.4xlarge", sha := "abc",
                       profile := "release" }] }
        { instance_type := "c5.4xlarge", sha := "abc", profile := "release" } =
        some { timestamp := 1, region := "us-east-2", ami := "ami-1",
               instance_type := "c5.4xlarge", sha := "abc",
               profile := "release" } ∧
      ensure_ami_build
        { instance_type := "c5.4xlarge", sha := "abc", profile := "release" }
        { builds := [{ timestamp := 1, region := "us-east-2", ami := "ami-1",
                       instance_type := "c5.4xlarge", sha := "abc",
                       profile := "release" }] }
        none { builds := [] } =
        (.cached { timestamp := 1, region := "us-east-2", ami := "ami-1",
                   instance_type := "c5.4xlarge", sha := "abc",
                   profile := "release" }, none)) :=
  ⟨rfl, by decide,
    ensure_ami_build_cache.1 _ _ none { builds := [] } _ rfl (by decide)⟩

theorem terraform_apply_runs_le_one (p1 p2 : PlanResult) (ap : Bool) :
    (terraform p1 p2 ap).apply_runs ≤ 1 := by
  rcases p1 with out | _ | _ | _
  · simp only [terraform, terraformApplyPhase]
    split_ifs <;> simp
  · rcases p2 with out | _ | _ | _
    · simp only [terraform, terraformApplyPhase]
      split_ifs <;> simp
    · simp [terraform]
    · simp [terraform]
    · simp [terraform]
  · simp [terraform]
  · simp [terraform]

/-- C6: provisioning applies only when the plan reports changes. A
successful plan leads to an apply step exactly when the change list is
nonempty, so a second call whose plan (by the provisioner's idempotence
on identical variables) reports zero changes performs no apply, and two
such calls perform the apply step at most once in total. A plan failure
that reports the provisioner was never initialized triggers exactly one
initialization and exactly one plan retry; any other plan failure (and
any apply failure) propagates without retrying. -/
theorem terraform_plan_apply (out : List String) (p2 : PlanResult) (ap : Bool) :
    ((terraform (.ok out) p2 ap).apply_runs =
        if planChanges out = [] then 0 else 1) ∧
    (∀ (p1 p2b : PlanResult) (apb : Bool), planChanges out = [] →
      (terraform p1 p2b apb).apply_runs + (terraform (.ok out) p2 ap).apply_runs
        ≤ 1) ∧
    ((terraform .errNeedsInit p2 ap).init_runs = 1 ∧
      (terraform .errNeedsInit p2 ap).plan_runs = 2) ∧
    (terraform .errOther p2 ap =
      { init_runs := 0, plan_runs := 1, apply_runs := 0,
        outcome := .planFailed }) ∧
    (planChanges out ≠ [] →
      terraform (.ok out) p2 false =
        { init_runs := 0, plan_runs := 1, apply_runs := 1,
          outcome := .applyFailed }) := by
  have happly : (terraform (.ok out) p2 ap).apply_runs =
      if planChanges out = [] then 0 else 1 := by
    simp only [terraform, terraformApplyPhase]
    split_ifs <;> rfl
  refine ⟨happly, ?_, ?_, ?_, ?_⟩
  · intro p1 p2b apb hzero
    rw [happly, if_pos hzero, Nat.add_zero]
    exact terraform_apply_runs_le_one p1 p2b apb
  · rcases p2 with out2 | _ | _ | _
    · refine ⟨?_, ?_⟩ <;>
        (simp only [terraform, terraformApplyPhase]; split_ifs <;> rfl)
    · exact ⟨rfl, rfl⟩
    · exact ⟨rfl, rfl⟩
    · exact ⟨rfl, rfl⟩
  · rfl
  · intro hne
    simp only [terraform, terraformApplyPhase, if_neg hne, Bool.false_eq_true,
      if_false]

theorem retryLoop_zero_fuel (outcomes : Nat → Outcome) (attempt : Nat)
    (interrupted : Bool) (log : Nat) :
    retryLoop outcomes attempt 0 interrupted log =
      { attempts := attempt - 1, log_entries := log, written := [],
        aborted := false } := by
  rw [retryLoop]

theorem retryLoop_failure_step (outcomes : Nat → Outcome) (attempt f : Nat)
    (interrupted : Bool) (log : Nat) (h : outcomes attempt = .failure) :
    retryLoop outcomes attempt (f + 1) interrupted log =
      retryLoop outcomes (attempt + 1) f interrupted (log + 1) := by
  rw [retryLoop, h]

theorem retryLoop_interrupt_step_first (outcomes : Nat → Outcome)
    (attempt f : Nat) (log : Nat) (h : outcomes attempt = .interrupt) :
    retryLoop outcomes attempt (f + 1) false log =
      retryLoop outcomes (attempt + 1) f true log := by
  rw [retryLoop, h]
  rfl

theorem retryLoop_interrupt_step_second (outcomes : Nat → Outcome)
    (attempt f : Nat) (log : Nat) (h : outcomes attempt = .interrupt) :
    retryLoop outcomes attempt (f + 1) true log =
      { attempts := attempt, log_entries := log, written := [],
        aborted := true } := by
  rw [retryLoop, h]
  rfl

theorem retryLoop_success_step (outcomes : Nat → Outcome) (attempt f : Nat)
    (interrupted : Bool) (log t : Nat) (h : outcomes attempt = .success t) :
    retryLoop outcomes attempt (f + 1) interrupted log =
      { attempts := attempt, log_entries := log, written := [t],
        aborted := false } := by
  rw [retryLoop, h]

theorem retryLoop_failure_advance (outcomes : Nat → Outcome) :
    ∀ (d attempt fuel : Nat) (interrupted : Bool) (log : Nat),
      (∀ j, attempt ≤ j → j < attempt + d → outcomes j = .failure) →
      d ≤ fuel →
      retryLoop outcomes attempt fuel interrupted log =
        retryLoop outcomes (attempt + d) (fuel - d) interrupted (log + d)
  | 0, attempt, fuel, interrupted, log, _, _ => by simp
  | d + 1, attempt, fuel, interrupted, log, h, hd => by
    obtain ⟨f, rfl⟩ : ∃ f, fuel = f + 1 := ⟨fuel - 1, by omega⟩
    rw [retryLoop_failure_step outcomes attempt f interrupted log
      (h attempt (le_refl _) (by omega))]
    rw [retryLoop_failure_advance outcomes d (attempt + 1) f interrupted (log + 1)
      (fun j hj1 hj2 => h j (by omega) (by omega)) (by omega)]
    congr 1 <;> omega

theorem terraform_plan_apply_witness :
    ((terraform (.ok []) (.ok []) true).apply_runs =
        if planChanges [] = [] then 0 else 1) ∧
    (planChanges [] = [] ∧
      (terraform (.ok ["  # aws_instance.pub will be created"]) (.ok []) true).apply_runs +
        (terraform (.ok []) (.ok []) true).apply_runs ≤ 1) ∧
    (planChanges ["  # aws_instance.pub will be created"] ≠ [] ∧
      terraform (.ok ["  # aws_instance.pub will be created"]) (.ok []) false =
        { init_runs := 0, plan_runs := 1, apply_runs := 1,
          outcome := .applyFailed }) :=
  ⟨(terraform_plan_apply [] (.ok []) true).1,
    ⟨rfl, (terraform_plan_apply [] (.ok []) true).2.1 _ _ _ rfl⟩,
    ⟨by decide, (terraform_plan_apply _ (.ok []) false).2.2.2.2 (by decide)⟩⟩

/-- C1: a trial whose `run()` raises on every attempt makes exactly
`MAX_ATTEMPTS` (5) attempts, appends exactly `MAX_ATTEMPTS` entries to
the error log, never calls the writer (no Result is emitted; the Python
function returns `None`), and does not abort. -/
theorem retry_bound (outcomes : Nat → Outcome)
    (h : ∀ i, outcomes i = .failure) :
    retry_experiment outcomes =
      { attempts := MAX_ATTEMPTS, log_entries := MAX_ATTEMPTS, written := [],
        aborted := false } := by
  show retryLoop outcomes 1 5 false 0 = _
  rw [retryLoop_failure_advance outcomes 5 1 5 false 0 (fun j _ _ => h j)
    (le_refl 5)]
  rw [retryLoop_zero_fuel]
  rfl

theorem retry_bound_witness :
    (∀ i : Nat, (fun _ => Outcome.failure) i = Outcome.failure) ∧
    retry_experiment (fun _ => Outcome.failure) =
      { attempts := MAX_ATTEMPTS, log_entries := MAX_ATTEMPTS, written := [],
        aborted := false } :=
  ⟨fun _ => rfl, retry_bound (fun _ => Outcome.failure) (fun _ => rfl)⟩

/-- C2 counterexample: the claim says a single cancellation signal
always leads to a retried attempt. When the single signal arrives during
the final attempt (here: `run()` raised on attempts 1-4 and the signal
fired during attempt 5), the code abandons the attempt and the loop
ends: the trace shows 5 attempts (none after the cancelled one), 4 log
entries, no Result and no abort — no retried attempt results. -/
theorem single_interrupt_final_attempt_no_retry :
    (fun j => if j = 5 then Outcome.interrupt else Outcome.failure) 5 =
      Outcome.interrupt ∧
    retry_experiment (fun j => if j = 5 then Outcome.interrupt else Outcome.failure) =
      { attempts := 5, log_entries := 4, written := [], aborted := false } :=
  ⟨rfl, by decide⟩

/-- C2 amended: during one trial, a first cancellation signal cancels
the in-flight `run()` and, provided an attempt remains (the signal does
not arrive during the final attempt), leads to exactly one retried
attempt rather than an abort — the cancelled attempt still counts
toward the bound; a second signal during the same trial with no success
between the two raises `KeyboardInterrupt`. -/
theorem cancellation_retry_then_abort :
    (∀ (outcomes : Nat → Outcome) (k t : Nat),
      1 ≤ k → k + 1 ≤ MAX_ATTEMPTS →
      (∀ j, 1 ≤ j → j < k → outcomes j = .failure) →
      outcomes k = .interrupt →
      outcomes (k + 1) = .success t →
      retry_experiment outcomes =
        { attempts := k + 1, log_entries := k - 1, written := [t],
          aborted := false }) ∧
    (∀ (outcomes : Nat → Outcome) (k m : Nat),
      1 ≤ k → k < m → m ≤ MAX_ATTEMPTS →
      (∀ j, 1 ≤ j → j < k → outcomes j = .failure) →
      outcomes k = .interrupt →
      (∀ j, k < j → j < m → outcomes j = .failure) →
      outcomes m = .interrupt →
      retry_experiment outcomes =
        { attempts := m, log_entries := m - 2, written := [],
          aborted := true }) := by
  constructor
  · intro outcomes k t hk1 hk5 hpre hint hsucc
    have hk5 : k + 1 ≤ 5 := hk5
    show retryLoop outcomes 1 5 false 0 = _
    rw [retryLoop_failure_advance outcomes (k - 1) 1 5 false 0
      (fun j h1 h2 => hpre j h1 (by omega)) (by omega)]
    rw [show 1 + (k - 1) = k from by omega, show 0 + (k - 1) = k - 1 from by omega,
      show 5 - (k - 1) = (5 - k) + 1 from by omega]
    rw [retryLoop_interrupt_step_first outcomes k (5 - k) (k - 1) hint]
    rw [show 5 - k = (4 - k) + 1 from by omega]
    rw [retryLoop_success_step outcomes (k + 1) (4 - k) true (k - 1) t hsucc]
  · intro outcomes k m hk1 hkm hm5 hpre hint hmid hint2
    have hm5 : m ≤ 5 := hm5
    show retryLoop outcomes 1 5 false 0 = _
    rw [retryLoop_failure_advance outcomes (k - 1) 1 5 false 0
      (fun j h1 h2 => hpre j h1 (by omega)) (by omega)]
    rw [show 1 + (k - 1) = k from by omega, show 0 + (k - 1) = k - 1 from by omega,
      show 5 - (k - 1) = (5 - k) + 1 from by omega]
    rw [retryLoop_interrupt_step_first outcomes k (5 - k) (k - 1) hint]
    rw [retryLoop_failure_advance outcomes (m - k - 1) (k + 1) (5 - k) true (k - 1)
      (fun j h1 h2 => hmid j (by omega) (by omega)) (by omega)]
    rw [show k + 1 + (m - k - 1) = m from by omega,
      show k - 1 + (m - k - 1) = m - 2 from by omega,
      show 5 - k - (m - k - 1) = (5 - m) + 1 from by omega]
    exact retryLoop_interrupt_step_second outcomes m (5 - m) (m - 2) hint2

theorem cancellation_retry_then_abort_witness :
    (retry_experiment (fun j => if j = 1 then Outcome.interrupt
        else Outcome.success 42) =
      { attempts := 2, log_entries := 0, written := [42], aborted := false }) ∧
    (retry_experiment (fun _ => Outcome.interrupt) =
      { attempts := 2, log_entries := 0, written := [], aborted := true }) :=
  ⟨cancellation_retry_then_abort.1 _ 1 42 (le_refl 1) (by decide)
      (fun j h1 h2 => absurd (lt_of_le_of_lt h1 h2) (lt_irrefl 1))
      rfl rfl,
    cancellation_retry_then_abort.2 _ 1 2 (le_refl 1) (by decide) (by decide)
      (fun j h1 h2 => absurd (lt_of_le_of_lt h1 h2) (lt_irrefl 1))
      rfl (fun j h1 h2 => absurd h2 (by omega)) rfl⟩

/-- C7 counterexample: the claim says the process exits non-zero when a
trial exhausts its retries without success. In the code no failure count
reaches the exit status: with a single trial that fails every attempt
(it exhausts its retries, emits nothing and does not abort), `main`
returns normally and the process exit code is 0. -/
theorem exit_zero_despite_exhausted_trial :
    exhausted_retries (fun _ => Outcome.failure) ∧
    (retry_experiment (fun _ => Outcome.failure)).attempts = MAX_ATTEMPTS ∧
    main_exit_code [fun _ => Outcome.failure] = 0 :=
  ⟨⟨by decide, by decide⟩, by decide, by decide⟩

/-- C7 amended: the process exit code is 0 for every sequence of trial
outcomes — a trial that exhausts its retries does not change it (trial
failures surface only in the results stream and the error log), and a
`KeyboardInterrupt` abort is caught by `main`. -/
theorem main_exit_code_always_zero (trials : List (Nat → Outcome)) :
    main_exit_code trials = 0 := by
  rw [main_exit_code]
  split <;> rfl

end Spectrum

namespace SpectrumNew

/-- C10: for an Environment with `client_machines == 0` and a machine
list of length `total_machines` (so the assertion passes), `to_setup`
returns a Setting whose `clients` field is the entire machine list
(because `machines[-0:]` is the whole list), which is nonempty. -/
theorem to_setup_zero_client_machines {M : Type} (e : Environment)
    (machines : List M) (h0 : e.client_machines = 0)
    (hlen : machines.length = e.total_machines) :
    ∃ s : Setting M, e.to_setup machines = some s ∧
      s.clients = machines ∧ machines ≠ [] := by
  have hne : machines ≠ [] := by
    intro hnil
    rw [hnil] at hlen
    simp [Environment.total_machines] at hlen
  match machines, hne with
  | m0 :: rest, _ =>
    have hset : e.to_setup (m0 :: rest) = some
        { publisher := m0
          workers := ((m0 :: rest).drop 1).take e.worker_machines
          clients := sliceFromNegCount (m0 :: rest) e.client_machines } := by
      rw [Environment.to_setup, if_pos hlen]
    exact ⟨_, hset, by simp [sliceFromNegCount, h0], by simp⟩

theorem to_setup_zero_client_machines_witness :
    ({ machine_type := "c5.9xlarge", client_machines := 0,
       worker_machines := 1 } : Environment).client_machines = 0 ∧
    (["pub", "wrk"] : List String).length =
      ({ machine_type := "c5.9xlarge", client_machines := 0,
         worker_machines := 1 } : Environment).total_machines ∧
    ∃ s : Setting String,
      ({ machine_type := "c5.9xlarge", client_machines := 0,
         worker_machines := 1 } : Environment).to_setup ["pub", "wrk"] = some s ∧
        s.clients = ["pub", "wrk"] ∧ (["pub", "wrk"] : List String) ≠ [] :=
  ⟨rfl, rfl, to_setup_zero_client_machines _ ["pub", "wrk"] rfl rfl⟩

end SpectrumNew
